import Mathlib

/-!
Shallow embedding of the "Beecok" AI-based vector-search frontend and of its
mock-database backend shim, with proofs about the embedded operations.

The embedding follows the source:
  * `Frontend/src/App.jsx` — space-scoped search UI: `handleSearchInputChange`,
    `handleSpaceSelect`, `handleKeyDown`, `handleSearch`, `SpaceSelector`,
    `addNotification`, and the scope-removal button;
  * `Frontend/src/contexts/AuthContext.jsx` — the retrying HTTP wrapper
    `apiCall`;
  * the authenticated variant of the app (`AuthenticatedApp`), whose
    `handleSearch` checks `response.ok` while `App.jsx`'s does not;
  * `Backend/database.py` — `MockCollection._match_query` / `delete_many`.

Strings are modelled as `List Char` (`Str`); JavaScript string methods
(`trim`, `replace` with a string pattern, `includes`, `lastIndexOf`,
`toLowerCase`, `substring`) are embedded as total functions below.
-/

/-- Strings of the embedded programs. -/
abbrev Str := List Char

/-- Whitespace for the purposes of `String.prototype.trim`. -/
def jsWhitespace (c : Char) : Bool :=
  c == ' ' || c == '\t' || c == '\n' || c == '\r'

/-- Trailing-whitespace removal, the right half of `trim`. -/
def trimEndJs (s : Str) : Str :=
  (s.reverse.dropWhile jsWhitespace).reverse

/-- JavaScript `s.trim()`: strip whitespace from both ends. -/
def jsTrim (s : Str) : Str :=
  (trimEndJs s).dropWhile jsWhitespace

/-- JavaScript `hay.includes(needle)`: contiguous-substring containment. -/
def jsIncludes (hay needle : Str) : Bool :=
  match hay with
  | [] => needle.isEmpty
  | _ :: t => needle.isPrefixOf hay || jsIncludes t needle

/-- JavaScript `s.replace(pat, '')` with a string pattern: remove the first
occurrence of `pat`; if `pat` does not occur, return `s` unchanged. -/
def replaceFirst (s pat : Str) : Str :=
  match s with
  | [] => []
  | c :: t =>
    if pat.isPrefixOf (c :: t) then (c :: t).drop pat.length
    else c :: replaceFirst t pat

/-- JavaScript `s.lastIndexOf(c)`, as `none` for -1. -/
def lastIndexOf (c : Char) : Str → Option Nat
  | [] => none
  | x :: xs =>
    match lastIndexOf c xs with
    | some i => some (i + 1)
    | none => if x == c then some 0 else none

/-- JavaScript `s.toLowerCase()` (ASCII letters, which covers the embedded
space names). -/
def lowerStr (s : Str) : Str := s.map Char.toLower

/-- A document space as the frontend search UI consumes it. -/
structure Space where
  id : Str
  name : Str
deriving DecidableEq

/-- A toast notification: `addNotification` derives `id` from `Date.now()`. -/
structure Notification where
  id : Nat
  message : Str
  ntype : Str
deriving DecidableEq

/-- `addNotification(message, type)` at time `now`: appends
`{ id: Date.now(), message, type }` to the notification list. -/
def addNotification (now : Nat) (message ntype : Str)
    (notifs : List Notification) : List Notification :=
  notifs ++ [⟨now, message, ntype⟩]

/-- The `setTimeout` body scheduled 5 s after `addNotification`:
`prev.filter(n => n.id !== id)`. -/
def dismissNotification (id : Nat) (notifs : List Notification) :
    List Notification :=
  notifs.filter (fun n => n.id != id)

/-! ## Retrying HTTP wrapper (`AuthContext.jsx` `apiCall`) -/

/-- What one `fetch` attempt produces: a response with a status code, or a
thrown network error. -/
inductive Outcome where
  | resp (status : Nat)
  | err
deriving DecidableEq

/-- What `apiCall` hands back to its caller. `undef` is the JavaScript
`undefined` a zero-iteration loop would fall through to. -/
inductive ApiResult where
  | returned (status : Nat)
  | thrown
  | undef
deriving DecidableEq

/-- One run of `apiCall`: its result, the backoff waits (in seconds, in
order), and how many fetch attempts were made. -/
structure ApiRun where
  result : ApiResult
  waits : List Nat
  attempts : Nat
deriving DecidableEq

/-- `response.ok`: status in the range 200–299. -/
def respOk (status : Nat) : Bool :=
  200 ≤ status && status ≤ 299

/-- The loop of `apiCall(url, options, retries)` from iteration `i`, with
`r + 1` iterations left to run (so `r = 0` exactly when `i === retries - 1`,
and `1 ≤ r` exactly when `i < retries - 1`). Attempt `i` takes outcome
`f i`; on a 5xx response with retries left, or a thrown error with retries
left, it waits `1000 * (i + 1)` ms (recorded as `i + 1` seconds) and
continues; any other response is returned, and an error on the last
iteration is re-thrown. -/
def apiCallGo (f : Nat → Outcome) : Nat → Nat → ApiRun
  | 0, _ => ⟨ApiResult.undef, [], 0⟩
  | r + 1, i =>
    match f i with
    | Outcome.resp s =>
      if respOk s then ⟨ApiResult.returned s, [], 1⟩
      else if 500 ≤ s ∧ 1 ≤ r then
        let sub := apiCallGo f r (i + 1)
        ⟨sub.result, (i + 1) :: sub.waits, sub.attempts + 1⟩
      else ⟨ApiResult.returned s, [], 1⟩
    | Outcome.err =>
      if 1 ≤ r then
        let sub := apiCallGo f r (i + 1)
        ⟨sub.result, (i + 1) :: sub.waits, sub.attempts + 1⟩
      else ⟨ApiResult.thrown, [], 1⟩

/-- `apiCall` with `retries` attempts (the source's default is 3). -/
def apiCall (f : Nat → Outcome) (retries : Nat) : ApiRun :=
  apiCallGo f retries 0

/-- The retry scenario's outcome stream: two 500 responses, then 200s. -/
def retryScenario : Nat → Outcome
  | 0 => Outcome.resp 500
  | 1 => Outcome.resp 500
  | _ => Outcome.resp 200

/-! ## Space-selector input state (`App.jsx` / `AuthenticatedApp`) -/

/-- The React state touched by the search input and the space picker. -/
structure SelectorState where
  searchQuery : Str
  showSpaceSelector : Bool
  spaceSearchQuery : Str
  highlightedSpaceIndex : Int
  selectedSpaceInQuery : Option Space
deriving DecidableEq

/-- `SpaceSelector`'s filter, also recomputed inside `handleKeyDown`:
`spaces.filter(space => space.name.toLowerCase().includes(q.toLowerCase()))`. -/
def filteredSpaces (spaces : List Space) (q : Str) : List Space :=
  spaces.filter (fun sp => jsIncludes (lowerStr sp.name) (lowerStr q))

/-- What the `SpaceSelector` component renders: nothing when not visible,
otherwise the filtered space list (in source order). -/
def spaceSelectorView (spaces : List Space) (isVisible : Bool) (q : Str) :
    Option (List Space) :=
  if isVisible then some (filteredSpaces spaces q) else none

/-- `handleSearchInputChange(e)` with `value = e.target.value`: stores the
new query text, then drives the space-picker state from the position of the
last `@`. -/
def handleSearchInputChange (value : Str) (st : SelectorState) :
    SelectorState :=
  let st1 := { st with searchQuery := value }
  match lastIndexOf '@' value with
  | some atIndex =>
    if atIndex = value.length - 1 then
      { st1 with showSpaceSelector := true, spaceSearchQuery := [],
                 highlightedSpaceIndex := 0 }
    else
      if st1.selectedSpaceInQuery.isNone then
        { st1 with showSpaceSelector := true,
                   spaceSearchQuery := value.drop (atIndex + 1) }
      else st1
  | none =>
    let st2 := { st1 with showSpaceSelector := false }
    if jsIncludes value ['@'] then st2
    else { st2 with selectedSpaceInQuery := none }

/-- The query text `handleSpaceSelect` composes:
`searchQuery.substring(0, searchQuery.lastIndexOf('@'))` followed by
`@<space.name> ` with a trailing blank (`substring(0, -1)` is empty). -/
def commitSpace (searchQuery name : Str) : Str :=
  let beforeAt :=
    match lastIndexOf '@' searchQuery with
    | some atIndex => searchQuery.take atIndex
    | none => []
  beforeAt ++ '@' :: (name ++ [' '])

/-- `beforeAt` of `commitSpace`: the text before the last `@` (empty when
there is no `@`). -/
def beforeLastAt (searchQuery : Str) : Str :=
  match lastIndexOf '@' searchQuery with
  | some atIndex => searchQuery.take atIndex
  | none => []

/-- `handleSpaceSelect(space)`: commit the highlighted space into the query
text, record it as the active scope, close the picker. -/
def handleSpaceSelect (space : Space) (st : SelectorState) : SelectorState :=
  { st with searchQuery := commitSpace st.searchQuery space.name,
            selectedSpaceInQuery := some space,
            showSpaceSelector := false }

/-- The scope-removal "x" button's `onClick`: clear the selected space and
set the query to `searchQuery.replace(`@<name>`, '').trim()`. -/
def removeScope (searchQuery name : Str) : Str :=
  jsTrim (replaceFirst searchQuery ('@' :: name))

/-- A keyboard event as `handleKeyDown` reads it: `e.key` and `e.shiftKey`. -/
structure KeyEvent where
  key : Str
  shiftKey : Bool
deriving DecidableEq

/-- JavaScript `list[i]` indexing used by `filteredSpaces[highlightedSpaceIndex]`:
`undefined` (here `none`) outside the range. -/
def jsIndex (l : List Space) (i : Int) : Option Space :=
  if h : 0 ≤ i ∧ i.toNat < l.length then some (l.get ⟨i.toNat, h.2⟩) else none

/-- `handleKeyDown(e)`: with the picker open, arrows cycle the highlighted
index over the filtered spaces, Enter commits the highlighted space when
present, Escape closes the picker; with the picker closed, plain Enter
(no shift) submits the search — returned as the `Bool`. -/
def handleKeyDown (e : KeyEvent) (spaces : List Space) (st : SelectorState) :
    SelectorState × Bool :=
  if st.showSpaceSelector then
    let filtered := filteredSpaces spaces st.spaceSearchQuery
    if e.key = ("ArrowDown".toList) then
      ({ st with highlightedSpaceIndex :=
          if st.highlightedSpaceIndex < (filtered.length : Int) - 1 then
            st.highlightedSpaceIndex + 1
          else 0 }, false)
    else if e.key = ("ArrowUp".toList) then
      ({ st with highlightedSpaceIndex :=
          if st.highlightedSpaceIndex > 0 then st.highlightedSpaceIndex - 1
          else (filtered.length : Int) - 1 }, false)
    else if e.key = ("Enter".toList) then
      match jsIndex filtered st.highlightedSpaceIndex with
      | some sp => (handleSpaceSelect sp st, false)
      | none => (st, false)
    else if e.key = ("Escape".toList) then
      ({ st with showSpaceSelector := false }, false)
    else (st, false)
  else if e.key = ("Enter".toList) && !e.shiftKey then (st, true)
  else (st, false)

/-! ## Search submission (`handleSearch`, both variants) -/

/-- A parsed JSON response body as the handlers inspect it: an optional
`detail` field (read on error paths) and an opaque remainder distinguishing
payloads. -/
structure JsonValue where
  detail : Option Str
  payload : Nat
deriving DecidableEq

/-- One `fetch` of the search URL: a thrown network error, or a response
with a status whose `json()` either parses (`some body`) or throws
(`none`). -/
inductive FetchOutcome where
  | netError
  | response (status : Nat) (body : Option JsonValue)
deriving DecidableEq

/-- The React state `handleSearch` touches. -/
structure SearchState where
  searchResults : Option JsonValue
  notifications : List Notification
  isSearching : Bool
deriving DecidableEq

/-- The outbound request composed by `handleSearch`: the `q`,
`max_results` and (when scoped) `space_ids` URL parameters. -/
structure SearchRequest where
  q : Str
  max_results : Nat
  space_ids : Option Str
deriving DecidableEq

/-- Message literal `'Search failed'`. -/
def searchFailed : Str := "Search failed".toList

/-- Notification type literal `'error'`. -/
def errorType : Str := "error".toList

/-- Notification type literal `'success'`. -/
def successType : Str := "success".toList

/-- The scope text of the success notification: `space "<name>"` when a
space was selected, else `all spaces`. -/
def scopeLabel (sel : Option Space) : Str :=
  match sel with
  | some sp => ("space \"".toList) ++ sp.name ++ ("\"".toList)
  | none => "all spaces".toList

/-- The success message `Search completed in <scope>`. -/
def searchCompleted (sel : Option Space) : Str :=
  ("Search completed in ".toList) ++ scopeLabel sel

/-- JavaScript `error.detail || 'Search failed'` (an absent or empty
`detail` is falsy). -/
def jsOr (v : Option Str) (dflt : Str) : Str :=
  match v with
  | some s => if s.isEmpty then dflt else s
  | none => dflt

/-- `App.jsx`'s `handleSearch` at time `now`, with the fetch resolving to
`outcome`. Returns the final state and the request issued (`none` when the
trimmed query is empty and the handler returns before fetching). This
variant never consults `response.ok`: any response whose body parses is
installed via `setSearchResults` with a success notification; only a thrown
error (network failure or `json()` parse failure) reaches the catch
block. -/
def handleSearchApp (now : Nat) (searchQuery : Str)
    (selectedSpaceInQuery : Option Space) (maxResults : Nat)
    (outcome : FetchOutcome) (st : SearchState) :
    SearchState × Option SearchRequest :=
  if (jsTrim searchQuery).isEmpty then (st, none)
  else
    let actualQuery : Str :=
      match selectedSpaceInQuery with
      | some sp => jsTrim (replaceFirst searchQuery ('@' :: sp.name))
      | none => searchQuery
    let searchSpaces : List Str :=
      match selectedSpaceInQuery with
      | some sp => [sp.id]
      | none => []
    let req : SearchRequest :=
      { q := actualQuery, max_results := maxResults,
        space_ids :=
          if searchSpaces.length > 0 then
            some (List.intercalate [','] searchSpaces)
          else none }
    match outcome with
    | FetchOutcome.netError =>
      ({ st with
          notifications := addNotification now searchFailed errorType
            st.notifications,
          isSearching := false }, some req)
    | FetchOutcome.response _ body =>
      match body with
      | none =>
        ({ st with
            notifications := addNotification now searchFailed errorType
              st.notifications,
            isSearching := false }, some req)
      | some data =>
        ({ searchResults := some data,
           notifications := addNotification now
             (searchCompleted selectedSpaceInQuery) successType
             st.notifications,
           isSearching := false }, some req)

/-- `AuthenticatedApp`'s `handleSearch`: identical request composition, but
the response is consumed behind `if (response.ok)`; a non-ok response's body
is only read for its `detail` and surfaced as an error notification, and
the stored search results are not touched. -/
def handleSearchAuth (now : Nat) (searchQuery : Str)
    (selectedSpaceInQuery : Option Space) (maxResults : Nat)
    (outcome : FetchOutcome) (st : SearchState) :
    SearchState × Option SearchRequest :=
  if (jsTrim searchQuery).isEmpty then (st, none)
  else
    let actualQuery : Str :=
      match selectedSpaceInQuery with
      | some sp => jsTrim (replaceFirst searchQuery ('@' :: sp.name))
      | none => searchQuery
    let searchSpaces : List Str :=
      match selectedSpaceInQuery with
      | some sp => [sp.id]
      | none => []
    let req : SearchRequest :=
      { q := actualQuery, max_results := maxResults,
        space_ids :=
          if searchSpaces.length > 0 then
            some (List.intercalate [','] searchSpaces)
          else none }
    match outcome with
    | FetchOutcome.netError =>
      ({ st with
          notifications := addNotification now searchFailed errorType
            st.notifications,
          isSearching := false }, some req)
    | FetchOutcome.response status body =>
      if respOk status then
        match body with
        | some data =>
          ({ searchResults := some data,
             notifications := addNotification now
               (searchCompleted selectedSpaceInQuery) successType
               st.notifications,
             isSearching := false }, some req)
        | none =>
          ({ st with
              notifications := addNotification now searchFailed errorType
                st.notifications,
              isSearching := false }, some req)
      else
        match body with
        | some e =>
          ({ st with
              notifications := addNotification now (jsOr e.detail searchFailed)
                errorType st.notifications,
              isSearching := false }, some req)
        | none =>
          ({ st with
              notifications := addNotification now searchFailed errorType
                st.notifications,
              isSearching := false }, some req)

/-- A handler run surfaced an error notification on top of the previous
notification list, leaving everything else of `before`'s notifications in
place. -/
def notifiesError (before after : SearchState) (now : Nat) : Prop :=
  ∃ m, after.notifications = addNotification now m errorType
    before.notifications

/-! ## Mock database shim (`Backend/database.py`, `MockCollection`) -/

/-- A value stored in a mock document: a `bson.ObjectId` (carrying its hex
string, which is what `str()` renders), a string, an integer, or Python's
`None` (what `dict.get` yields for a missing key). -/
inductive MVal where
  | oid (s : Str)
  | str (s : Str)
  | int (n : Int)
  | null
deriving DecidableEq

/-- A mock document: a Python dict with unique keys. -/
abbrev Doc := List (Str × MVal)

/-- A value of a query dict: a plain value (possibly an `ObjectId`) or a
Python list (the operand of the shim's `$in` branch). -/
inductive QVal where
  | val (v : MVal)
  | list (vs : List MVal)
deriving DecidableEq

/-- Python `item.get(key)` as an option. -/
def dictGet (item : Doc) (key : Str) : Option MVal :=
  (item.find? (fun p => p.1 == key)).map (fun p => p.2)

/-- Python `item.get(key)` with the `None` default materialised. -/
def pyGet (item : Doc) (key : Str) : MVal :=
  (dictGet item key).getD MVal.null

/-- Python `str()` on a stored value (`str(ObjectId)` is its hex string). -/
def pyStr (v : MVal) : Str :=
  match v with
  | MVal.oid s => s
  | MVal.str s => s
  | MVal.int n => (toString n).toList
  | MVal.null => "None".toList

/-- Python `item[key] != value` equality between a query value and a stored
value: a list never equals a stored scalar. -/
def qvalEq (q : QVal) (m : MVal) : Bool :=
  match q with
  | QVal.val v => v == m
  | QVal.list _ => false

/-- The final `elif` of `_match_query`:
`key not in item or item[key] != value` fails the match. -/
def plainCond (item : Doc) (key : Str) (value : QVal) : Bool :=
  match dictGet item key with
  | some m => qvalEq value m
  | none => false

/-- One `key, value` entry of `_match_query`'s loop, `true` when it does not
`return False`. With `value` an `ObjectId` and `key == "_id"`, compare
`str(item.get(key, ""))` with `str(value)`; with `value` a list and
`key == "$in"`, require `item.get(key.replace("$in", ""))` to be in the
list (under that guard the first-occurrence `replace` modelled here agrees
with Python's replace-all); otherwise exact equality on a present key. -/
def matchCond (item : Doc) (key : Str) (value : QVal) : Bool :=
  match value with
  | QVal.val (MVal.oid s) =>
    if key == ("_id".toList) then
      pyStr ((dictGet item key).getD (MVal.str [])) == s
    else plainCond item key value
  | QVal.list vs =>
    if key == ("$in".toList) then
      vs.contains (pyGet item (replaceFirst key ("$in".toList)))
    else plainCond item key value
  | QVal.val _ => plainCond item key value

/-- `MockCollection._match_query(item, query)`: every query entry must
hold. -/
def matchQuery (item : Doc) (query : List (Str × QVal)) : Bool :=
  query.all (fun kv => matchCond item kv.1 kv.2)

/-- The object `delete_many` returns. -/
structure DeleteResult where
  deleted_count : Nat
deriving DecidableEq

/-- `MockCollection.delete_many(query)`: keep the non-matching documents (a
list comprehension, so in order), and report `original_length - len(new)`
as `deleted_count`. Returns the new `self.data` and the result object. -/
def delete_many (data : List Doc) (query : List (Str × QVal)) :
    List Doc × DeleteResult :=
  let newData := data.filter (fun item => !(matchQuery item query))
  (newData, ⟨data.length - newData.length⟩)

/-- A concrete space list for evaluating the suggestion filter. -/
def wSpaces : List Space :=
  [⟨"1".toList, "Medical".toList⟩, ⟨"2".toList, "Legal".toList⟩]

/-- A concrete initial selector state (no committed space). -/
def wSt : SelectorState := ⟨[], false, [], 0, none⟩

/-- Three spaces, all matching the empty filter, for the arrow-navigation
scenario. -/
def wSpaces3 : List Space :=
  [⟨"1".toList, "A".toList⟩, ⟨"2".toList, "B".toList⟩,
   ⟨"3".toList, "C".toList⟩]

/-- The selector state of the arrow-navigation scenario: picker open, empty
filter, highlight at index 0. -/
def wNavSt : SelectorState := ⟨['@'], true, [], 0, none⟩

/-! ## Helper lemmas -/

theorem lastIndexOf_eq_none (c : Char) (p : Str) (hp : c ∉ p) :
    lastIndexOf c p = none := by
  induction p with
  | nil => rfl
  | cons x xs ih =>
    simp only [List.mem_cons, not_or] at hp
    simp only [lastIndexOf, ih hp.2]
    have : (x == c) = false := by
      simp only [beq_eq_false_iff_ne]
      exact fun h => hp.1 h.symm
    simp [this]

theorem lastIndexOf_append (c : Char) (base p : Str) (hp : c ∉ p) :
    lastIndexOf c (base ++ c :: p) = some base.length := by
  induction base with
  | nil =>
    simp only [List.nil_append, lastIndexOf, lastIndexOf_eq_none c p hp]
    simp
  | cons b bs ih =>
    simp only [List.cons_append, lastIndexOf, List.append_eq]
    rw [ih]
    simp

theorem apiCallGo_attempts_le (f : Nat → Outcome) :
    ∀ r i, (apiCallGo f r i).attempts ≤ r := by
  intro r
  induction r with
  | zero => intro i; simp [apiCallGo]
  | succ r ih =>
    intro i
    simp only [apiCallGo]
    cases f i with
    | resp s =>
      by_cases h1 : respOk s
      · simp [h1]
      · by_cases h2 : 500 ≤ s ∧ 1 ≤ r
        · simp only [h1, h2, if_true, if_false]
          have := ih (i + 1)
          simp
          omega
        · simp [h1, h2]
    | err =>
      by_cases h : 1 ≤ r
      · simp only [h, if_true]
        have := ih (i + 1)
        simp
        omega
      · simp [h]

theorem apiCallGo_attempts_pos (f : Nat → Outcome) (r i : Nat) :
    1 ≤ (apiCallGo f (r + 1) i).attempts := by
  simp only [apiCallGo]
  cases f i with
  | resp s =>
    by_cases h1 : respOk s
    · simp [h1]
    · by_cases h2 : 500 ≤ s ∧ 1 ≤ r
      · simp [h1, h2]
      · simp [h1, h2]
  | err =>
    by_cases h : 1 ≤ r
    · simp [h]
    · simp [h]

theorem apiCallGo_waits_linear (f : Nat → Outcome) :
    ∀ r i, (apiCallGo f r i).waits =
      List.range' (i + 1) ((apiCallGo f r i).attempts - 1) := by
  intro r
  induction r with
  | zero => intro i; simp [apiCallGo]
  | succ r ih =>
    intro i
    simp only [apiCallGo]
    cases f i with
    | resp s =>
      by_cases h1 : respOk s
      · simp [h1]
      · by_cases h2 : 500 ≤ s ∧ 1 ≤ r
        · simp only [h1, h2, if_true, if_false]
          obtain ⟨r2, hr2⟩ : ∃ r2, r = r2 + 1 := ⟨r - 1, by omega⟩
          subst hr2
          have hp := apiCallGo_attempts_pos f r2 (i + 1)
          obtain ⟨k, hk⟩ : ∃ k, (apiCallGo f (r2 + 1) (i + 1)).attempts = k + 1 :=
            ⟨(apiCallGo f (r2 + 1) (i + 1)).attempts - 1, by omega⟩
          simp only [ih (i + 1), hk]
          simp [List.range'_succ]
        · simp [h1, h2]
    | err =>
      by_cases h : 1 ≤ r
      · simp only [h, if_true]
        obtain ⟨r2, hr2⟩ : ∃ r2, r = r2 + 1 := ⟨r - 1, by omega⟩
        subst hr2
        have hp := apiCallGo_attempts_pos f r2 (i + 1)
        obtain ⟨k, hk⟩ : ∃ k, (apiCallGo f (r2 + 1) (i + 1)).attempts = k + 1 :=
          ⟨(apiCallGo f (r2 + 1) (i + 1)).attempts - 1, by omega⟩
        simp only [ih (i + 1), hk]
        simp [List.range'_succ]
      · simp [h]

theorem jsTrim_append_space (B : Str) : jsTrim (B ++ [' ']) = jsTrim B := by
  have h : trimEndJs (B ++ [' ']) = trimEndJs B := by
    simp only [trimEndJs, List.reverse_append, List.reverse_cons,
      List.reverse_nil, List.nil_append, List.singleton_append]
    rw [List.dropWhile_cons_of_pos (by rfl)]
  simp only [jsTrim, h]

theorem length_filter_not_add {α : Type} (p : α → Bool) (l : List α) :
    (l.filter (fun a => !(p a))).length + (l.filter p).length = l.length := by
  induction l with
  | nil => rfl
  | cons a t ih =>
    by_cases h : p a <;> simp [List.filter_cons, h] <;> omega

theorem intercalate_single (sep x : Str) : List.intercalate sep [x] = x := by
  simp [List.intercalate, List.intersperse]

theorem replaceFirst_first_occurrence (N : Str) (hN : '@' ∉ N) :
    ∀ (B : Str) (R : Str), jsIncludes B ('@' :: N) = false →
      replaceFirst (B ++ (('@' :: N) ++ R)) ('@' :: N) = B ++ R := by
  intro B
  induction B with
  | nil =>
    intro R _
    have hpre : ('@' :: N).isPrefixOf ('@' :: (N ++ R)) = true := by
      rw [List.isPrefixOf_iff_prefix, ← List.cons_append]
      exact List.prefix_append _ _
    show replaceFirst ([] ++ (('@' :: N) ++ R)) ('@' :: N) = [] ++ R
    rw [List.nil_append, List.nil_append, List.cons_append]
    rw [show replaceFirst ('@' :: (N ++ R)) ('@' :: N) =
        if ('@' :: N).isPrefixOf ('@' :: (N ++ R)) then
          ('@' :: (N ++ R)).drop ('@' :: N).length
        else '@' :: replaceFirst (N ++ R) ('@' :: N) from rfl]
    rw [if_pos hpre, show ('@' :: (N ++ R)) = ('@' :: N) ++ R from
      (List.cons_append _ _ _).symm]
    exact List.drop_left _ _
  | cons c B2 ih =>
    intro R hInc
    simp only [jsIncludes, Bool.or_eq_false_iff] at hInc
    obtain ⟨hnotpre, hrest⟩ := hInc
    have key : ('@' :: N).isPrefixOf (c :: (B2 ++ '@' :: (N ++ R))) = false := by
      by_contra hcon
      have hpre : ('@' :: N) <+: (c :: B2) ++ (('@' :: N) ++ R) := by
        rw [← List.isPrefixOf_iff_prefix]
        simpa using hcon
      by_cases hlen : ('@' :: N).length ≤ (c :: B2).length
      · have heq := List.prefix_iff_eq_take.mp hpre
        rw [List.take_append_of_le_length hlen] at heq
        have hpre2 : ('@' :: N).isPrefixOf (c :: B2) = true := by
          rw [List.isPrefixOf_iff_prefix]
          exact heq ▸ List.take_prefix _ _
        rw [hpre2] at hnotpre
        exact Bool.noConfusion hnotpre
      · have heq := List.prefix_iff_eq_take.mp hpre
        rw [List.take_append_eq_append_take,
          List.take_of_length_le (by omega)] at heq
        obtain ⟨k, hk⟩ : ∃ k,
            ('@' :: N).length - (c :: B2).length = k + 1 :=
          ⟨('@' :: N).length - (c :: B2).length - 1, by omega⟩
        rw [hk] at heq
        simp only [List.cons_append, List.take_succ_cons] at heq
        have hN2 : N = B2 ++ '@' :: (N ++ R).take k :=
          ((List.cons.injEq _ _ _ _).mp heq).2
        exact hN (by rw [hN2]; simp)
    show replaceFirst ((c :: B2) ++ (('@' :: N) ++ R)) ('@' :: N) =
      (c :: B2) ++ R
    rw [List.cons_append, List.cons_append]
    rw [show replaceFirst (c :: (B2 ++ '@' :: (N ++ R))) ('@' :: N) =
        if ('@' :: N).isPrefixOf (c :: (B2 ++ '@' :: (N ++ R))) then
          (c :: (B2 ++ '@' :: (N ++ R))).drop ('@' :: N).length
        else c :: replaceFirst (B2 ++ '@' :: (N ++ R)) ('@' :: N) from rfl]
    rw [if_neg (by simp [key])]
    exact congrArg (fun t => c :: t) (ih R hrest)

/-! ## Claim theorems -/

/-- Claim C1 (amended): in `AuthenticatedApp.handleSearch`, every failed
submission — a response with `respOk = false` or a network error — leaves
the stored search results unchanged and surfaces an error notification. In
`App.jsx`'s `handleSearch`, which never checks `response.ok`, this holds
only for network errors and `json()` parse failures; a non-2xx response
whose body parses is installed as the new result (see the
counterexample). -/
theorem handleSearch_failure_sticky :
    ∀ (now : Nat) (q : Str) (sp : Option Space) (maxR : Nat)
      (st : SearchState),
      (jsTrim q).isEmpty = false →
      (∀ status body, respOk status = false →
        (handleSearchAuth now q sp maxR (FetchOutcome.response status body)
            st).1.searchResults = st.searchResults ∧
        notifiesError st
          (handleSearchAuth now q sp maxR (FetchOutcome.response status body)
            st).1 now) ∧
      ((handleSearchAuth now q sp maxR FetchOutcome.netError
          st).1.searchResults = st.searchResults ∧
        notifiesError st
          (handleSearchAuth now q sp maxR FetchOutcome.netError st).1 now) ∧
      ((handleSearchApp now q sp maxR FetchOutcome.netError
          st).1.searchResults = st.searchResults ∧
        notifiesError st
          (handleSearchApp now q sp maxR FetchOutcome.netError st).1 now) ∧
      (∀ status,
        (handleSearchApp now q sp maxR (FetchOutcome.response status none)
            st).1.searchResults = st.searchResults ∧
        notifiesError st
          (handleSearchApp now q sp maxR (FetchOutcome.response status none)
            st).1 now) := by
  intro now q sp maxR st hq
  refine ⟨?_, ?_, ?_, ?_⟩
  · intro status body hok
    cases body with
    | none =>
      exact ⟨by simp [handleSearchAuth, hq, hok],
             searchFailed, by simp [handleSearchAuth, hq, hok]⟩
    | some e =>
      exact ⟨by simp [handleSearchAuth, hq, hok],
             jsOr e.detail searchFailed, by simp [handleSearchAuth, hq, hok]⟩
  · exact ⟨by simp [handleSearchAuth, hq],
           searchFailed, by simp [handleSearchAuth, hq]⟩
  · exact ⟨by simp [handleSearchApp, hq],
           searchFailed, by simp [handleSearchApp, hq]⟩
  · intro status
    exact ⟨by simp [handleSearchApp, hq],
           searchFailed, by simp [handleSearchApp, hq]⟩

/-- Witness for C1: a concrete 404 with a parsed error body against the
authenticated handler leaves the (empty) results empty and appends an
error notification. -/
theorem handleSearch_failure_sticky_witness :
    (handleSearchAuth 0 ("hi".toList) none 10
        (FetchOutcome.response 404 (some ⟨some ("nope".toList), 3⟩))
        ⟨none, [], false⟩).1.searchResults = none ∧
    notifiesError ⟨none, [], false⟩
      (handleSearchAuth 0 ("hi".toList) none 10
        (FetchOutcome.response 404 (some ⟨some ("nope".toList), 3⟩))
        ⟨none, [], false⟩).1 0 :=
  (handleSearch_failure_sticky 0 ("hi".toList) none 10 ⟨none, [], false⟩
    (by decide)).1 404 (some ⟨some ("nope".toList), 3⟩) (by decide)

/-- Counterexample to C1 as stated: `App.jsx`'s `handleSearch` takes a 404
response whose body parses, installs that body as the new search result
(over a previously empty result), and surfaces a success — not error —
notification. -/
theorem handleSearchApp_installs_error_body :
    (handleSearchApp 0 ("hello".toList) none 10
        (FetchOutcome.response 404 (some ⟨some ("Not found".toList), 0⟩))
        ⟨none, [], false⟩).1.searchResults =
      some ⟨some ("Not found".toList), 0⟩ ∧
    (handleSearchApp 0 ("hello".toList) none 10
        (FetchOutcome.response 404 (some ⟨some ("Not found".toList), 0⟩))
        ⟨none, [], false⟩).1.notifications =
      [⟨0, searchCompleted none, successType⟩] ∧
    respOk 404 = false := by decide

/-- Claim C2 (amended): a submission with a non-empty trimmed query issues
exactly one request. With a committed space scope the request's `q` is the
scope-stripped, trimmed text and `space_ids` is the scope's id; with no
committed scope `q` is the raw query text, not trimmed. Both handler
variants compose the same request, and the `@Medical side effects`
scenario resolves to `q = "side effects"`, `space_ids = med-1`. -/
theorem handleSearch_request_params :
    ∀ (now : Nat) (q : Str) (sp : Option Space) (maxR : Nat)
      (outcome : FetchOutcome) (st : SearchState),
      (jsTrim q).isEmpty = false →
      (∀ s, sp = some s →
        (handleSearchApp now q sp maxR outcome st).2 =
          some ⟨jsTrim (replaceFirst q ('@' :: s.name)), maxR, some s.id⟩) ∧
      (sp = none →
        (handleSearchApp now q sp maxR outcome st).2 =
          some ⟨q, maxR, none⟩) ∧
      ((handleSearchAuth now q sp maxR outcome st).2 =
        (handleSearchApp now q sp maxR outcome st).2) ∧
      (∀ s2 : SearchState,
        (handleSearchApp now ("@Medical side effects".toList)
            (some ⟨"med-1".toList, "Medical".toList⟩) maxR outcome s2).2 =
          some ⟨"side effects".toList, maxR, some ("med-1".toList)⟩) := by
  intro now q sp maxR outcome st hq
  have hsome : ∀ (q2 : Str) (s : Space) (o : FetchOutcome) (st2 : SearchState),
      (jsTrim q2).isEmpty = false →
      (handleSearchApp now q2 (some s) maxR o st2).2 =
        some ⟨jsTrim (replaceFirst q2 ('@' :: s.name)), maxR, some s.id⟩ := by
    intro q2 s o st2 hq2
    cases o with
    | netError => simp [handleSearchApp, hq2, intercalate_single]
    | response status body =>
      cases body <;> simp [handleSearchApp, hq2, intercalate_single]
  refine ⟨?_, ?_, ?_, ?_⟩
  · rintro s rfl
    exact hsome q s outcome st hq
  · rintro rfl
    cases outcome with
    | netError => simp [handleSearchApp, hq]
    | response status body => cases body <;> simp [handleSearchApp, hq]
  · cases outcome with
    | netError => simp [handleSearchApp, handleSearchAuth, hq]
    | response status body =>
      by_cases hok : respOk status
      · cases body <;> simp [handleSearchApp, handleSearchAuth, hq, hok]
      · cases body <;> simp [handleSearchApp, handleSearchAuth, hq, hok]
  · intro s2
    rw [hsome ("@Medical side effects".toList)
      ⟨"med-1".toList, "Medical".toList⟩ outcome s2 (by decide)]
    simp only [Option.some.injEq, SearchRequest.mk.injEq]
    exact ⟨by decide, trivial, by decide⟩

/-- Witness for C2: with no committed scope, the request's `q` is the raw
query text. -/
theorem handleSearch_request_params_witness :
    (handleSearchApp 0 ("x".toList) none 10 FetchOutcome.netError
        ⟨none, [], false⟩).2 = some ⟨"x".toList, 10, none⟩ :=
  (handleSearch_request_params 0 ("x".toList) none 10 FetchOutcome.netError
    ⟨none, [], false⟩ (by decide)).2.1 rfl

/-- Counterexample to C2 as stated: with no committed scope, the query
`"hello "` (trailing blank, non-empty when trimmed) is sent as `q`
verbatim — it is not the trimmed text. -/
theorem handleSearchApp_query_not_trimmed :
    (handleSearchApp 0 ("hello ".toList) none 10 FetchOutcome.netError
        ⟨none, [], false⟩).2 = some ⟨"hello ".toList, 10, none⟩ ∧
    jsTrim ("hello ".toList) = ("hello".toList) ∧
    ("hello ".toList ≠ "hello".toList) := by decide

/-- Claim C3: the retrying wrapper `apiCall` makes at most 3 attempts; the
waits between attempts are linear, `1 s, 2 s, ...` (attempt index times one
second); a 5xx response or a thrown error with iterations left waits
`i + 1` seconds and retries; and the two-500s-then-200 scenario returns the
200 response after attempts at waits of 1 s and 2 s. -/
theorem apiCall_retry_behavior :
    (∀ f, (apiCall f 3).attempts ≤ 3) ∧
    (∀ f, (apiCall f 3).waits = List.range' 1 ((apiCall f 3).attempts - 1)) ∧
    (∀ f r i s, f i = Outcome.resp s → 500 ≤ s → 1 ≤ r →
      apiCallGo f (r + 1) i =
        ⟨(apiCallGo f r (i + 1)).result, (i + 1) :: (apiCallGo f r (i + 1)).waits,
         (apiCallGo f r (i + 1)).attempts + 1⟩) ∧
    (∀ f r i, f i = Outcome.err → 1 ≤ r →
      apiCallGo f (r + 1) i =
        ⟨(apiCallGo f r (i + 1)).result, (i + 1) :: (apiCallGo f r (i + 1)).waits,
         (apiCallGo f r (i + 1)).attempts + 1⟩) ∧
    apiCall retryScenario 3 = ⟨ApiResult.returned 200, [1, 2], 3⟩ := by
  refine ⟨fun f => apiCallGo_attempts_le f 3 0,
          fun f => apiCallGo_waits_linear f 3 0, ?_, ?_, by decide⟩
  · intro f r i s hf h500 hr
    have hok : respOk s = false := by
      simp only [respOk, Bool.and_eq_false_iff, decide_eq_false_iff_not]
      omega
    simp [apiCallGo, hf, hok, h500, hr]
  · intro f r i hf hr
    simp [apiCallGo, hf, hr]

/-- Claim C8: whenever an attempt of the retrying wrapper receives a 4xx
response — at any attempt index, with any number of iterations left — the
wrapper makes no further attempts and returns that response immediately. -/
theorem apiCall_4xx_immediate :
    ∀ (f : Nat → Outcome) (r i s : Nat),
      f i = Outcome.resp s → 400 ≤ s → s ≤ 499 →
      apiCallGo f (r + 1) i = ⟨ApiResult.returned s, [], 1⟩ := by
  intro f r i s hf h1 h2
  have hok : respOk s = false := by
    simp only [respOk, Bool.and_eq_false_iff, decide_eq_false_iff_not]
    omega
  have h500 : ¬(500 ≤ s ∧ 1 ≤ r) := by omega
  simp [apiCallGo, hf, hok, h500]

/-- Witness for C8: a 404 on the first of three attempts is returned at
once, with one attempt made and no backoff waits. -/
theorem apiCall_4xx_immediate_witness :
    apiCallGo (fun _ => Outcome.resp 404) 3 0 =
      ⟨ApiResult.returned 404, [], 1⟩ :=
  apiCall_4xx_immediate (fun _ => Outcome.resp 404) 2 0 404 rfl
    (by decide) (by decide)

/-- Claim C4: committing a space suggestion replaces the text from the
triggering `@` to the end of the buffer with `@<name>` plus a trailing
blank, and the explicit scope-removal action then yields exactly the
composed query with the `@<name>` substring removed and the ends trimmed —
that is, the trimmed text that stood before the triggering `@`. The two
hypotheses pin the removed occurrence down as the committed one: the name
contains no `@`, and `@<name>` does not already occur in the earlier
text. -/
theorem commit_then_remove_roundtrip :
    ∀ (q name : Str),
      '@' ∉ name →
      jsIncludes (beforeLastAt q) ('@' :: name) = false →
      removeScope (commitSpace q name) name = jsTrim (beforeLastAt q) := by
  intro q name hN hB
  have hcomm : commitSpace q name =
      beforeLastAt q ++ (('@' :: name) ++ [' ']) := by
    simp [commitSpace, beforeLastAt]
  unfold removeScope
  rw [hcomm, replaceFirst_first_occurrence name hN (beforeLastAt q) [' '] hB]
  exact jsTrim_append_space _

/-- Witness for C4: committing "Medical" over the buffer `find @Med` and
then removing the scope leaves `find`. -/
theorem commit_then_remove_roundtrip_witness :
    removeScope (commitSpace ("find @Med".toList) ("Medical".toList))
      ("Medical".toList) = ("find".toList) :=
  (commit_then_remove_roundtrip ("find @Med".toList) ("Medical".toList)
    (by decide) (by decide)).trans (by decide)

/-- Claim C5: for an input that ends in `@` followed by a non-empty filter
text `p` (the text after the input's last `@`), with no space committed for
this `@`, the input-change handler opens the picker with filter `p`, and
the rendered suggestion list is exactly the spaces whose name contains `p`
case-insensitively, in source-list order (a filter, hence a sublist). -/
theorem suggestion_filter_exact :
    ∀ (spaces : List Space) (base p : Str) (st : SelectorState),
      p ≠ [] → '@' ∉ p → st.selectedSpaceInQuery = none →
      (handleSearchInputChange (base ++ '@' :: p) st).showSpaceSelector =
        true ∧
      (handleSearchInputChange (base ++ '@' :: p) st).spaceSearchQuery = p ∧
      spaceSelectorView spaces
        (handleSearchInputChange (base ++ '@' :: p) st).showSpaceSelector
        (handleSearchInputChange (base ++ '@' :: p) st).spaceSearchQuery =
        some (filteredSpaces spaces p) ∧
      (∀ sp, sp ∈ filteredSpaces spaces p ↔
        sp ∈ spaces ∧ jsIncludes (lowerStr sp.name) (lowerStr p) = true) ∧
      (filteredSpaces spaces p).Sublist spaces := by
  intro spaces base p st hp hatp hsel
  have hlast : lastIndexOf '@' (base ++ '@' :: p) = some base.length :=
    lastIndexOf_append '@' base p hatp
  have hlen : ¬(base.length = (base ++ '@' :: p).length - 1) := by
    simp only [List.length_append, List.length_cons]
    have : p.length ≠ 0 := fun h => hp (List.length_eq_zero.mp h)
    omega
  have hdrop : (base ++ '@' :: p).drop (base.length + 1) = p := by
    rw [show base ++ '@' :: p = (base ++ ['@']) ++ p by simp]
    rw [show base.length + 1 = (base ++ ['@']).length by simp]
    exact List.drop_left _ _
  have h1 : (handleSearchInputChange (base ++ '@' :: p) st).showSpaceSelector =
      true := by
    simp only [handleSearchInputChange, hlast]
    rw [if_neg hlen]
    simp [hsel]
  have h2 : (handleSearchInputChange (base ++ '@' :: p) st).spaceSearchQuery =
      p := by
    simp only [handleSearchInputChange, hlast]
    rw [if_neg hlen]
    simp [hsel, hdrop]
  refine ⟨h1, h2, ?_, ?_, List.filter_sublist _⟩
  · rw [h1, h2]
    simp [spaceSelectorView]
  · intro sp
    simp [filteredSpaces, List.mem_filter]

/-- Witness for C5: with spaces Medical and Legal and input `find @med`,
the rendered suggestion list is exactly the filtered list — concretely,
just Medical. -/
theorem suggestion_filter_exact_witness :
    spaceSelectorView wSpaces
      (handleSearchInputChange (("find ".toList) ++ '@' :: ("med".toList))
        wSt).showSpaceSelector
      (handleSearchInputChange (("find ".toList) ++ '@' :: ("med".toList))
        wSt).spaceSearchQuery =
      some [⟨"1".toList, "Medical".toList⟩] :=
  ((suggestion_filter_exact wSpaces ("find ".toList) ("med".toList) wSt
    (by decide) (by decide) rfl).2.2.1).trans (by decide)

/-- Claim C6: with the picker open and the highlight inside the filtered
list, ArrowDown and ArrowUp cycle the highlighted index circularly — they
compute the successor and predecessor modulo the filtered length, so
ArrowDown wraps from the last index to 0 and ArrowUp wraps from 0 to the
last index. -/
theorem arrow_navigation_wraps :
    ∀ (spaces : List Space) (st : SelectorState) (shift : Bool),
      st.showSpaceSelector = true →
      0 ≤ st.highlightedSpaceIndex →
      st.highlightedSpaceIndex <
        ((filteredSpaces spaces st.spaceSearchQuery).length : Int) →
      ((handleKeyDown ⟨"ArrowDown".toList, shift⟩ spaces
          st).1.highlightedSpaceIndex =
        (st.highlightedSpaceIndex + 1) %
          ((filteredSpaces spaces st.spaceSearchQuery).length : Int)) ∧
      ((handleKeyDown ⟨"ArrowUp".toList, shift⟩ spaces
          st).1.highlightedSpaceIndex =
        (st.highlightedSpaceIndex - 1) %
          ((filteredSpaces spaces st.spaceSearchQuery).length : Int)) ∧
      (st.highlightedSpaceIndex =
          ((filteredSpaces spaces st.spaceSearchQuery).length : Int) - 1 →
        (handleKeyDown ⟨"ArrowDown".toList, shift⟩ spaces
          st).1.highlightedSpaceIndex = 0) ∧
      (st.highlightedSpaceIndex = 0 →
        (handleKeyDown ⟨"ArrowUp".toList, shift⟩ spaces
          st).1.highlightedSpaceIndex =
          ((filteredSpaces spaces st.spaceSearchQuery).length : Int) - 1) := by
  intro spaces st shift hshow h0 hlt
  have hne1 : ¬(("ArrowUp".toList) = ("ArrowDown".toList)) := by decide
  have hdown : (handleKeyDown ⟨"ArrowDown".toList, shift⟩ spaces
      st).1.highlightedSpaceIndex =
      if st.highlightedSpaceIndex <
          ((filteredSpaces spaces st.spaceSearchQuery).length : Int) - 1 then
        st.highlightedSpaceIndex + 1
      else 0 := by
    simp [handleKeyDown, hshow]
  have hup : (handleKeyDown ⟨"ArrowUp".toList, shift⟩ spaces
      st).1.highlightedSpaceIndex =
      if st.highlightedSpaceIndex > 0 then st.highlightedSpaceIndex - 1
      else ((filteredSpaces spaces st.spaceSearchQuery).length : Int) - 1 := by
    simp [handleKeyDown, hshow, hne1]
  have hlenpos : 0 < ((filteredSpaces spaces st.spaceSearchQuery).length : Int) := by
    omega
  refine ⟨?_, ?_, ?_, ?_⟩
  · rw [hdown]
    by_cases hc : st.highlightedSpaceIndex <
        ((filteredSpaces spaces st.spaceSearchQuery).length : Int) - 1
    · rw [if_pos hc, Int.emod_eq_of_lt (by omega) (by omega)]
    · rw [if_neg hc,
        show st.highlightedSpaceIndex + 1 =
          ((filteredSpaces spaces st.spaceSearchQuery).length : Int) by omega,
        Int.emod_self]
  · rw [hup]
    by_cases hc : st.highlightedSpaceIndex > 0
    · rw [if_pos hc, Int.emod_eq_of_lt (by omega) (by omega)]
    · rw [if_neg hc,
        show st.highlightedSpaceIndex - 1 = (-1 : Int) by omega,
        show (-1 : Int) =
          (((filteredSpaces spaces st.spaceSearchQuery).length : Int) - 1) +
            ((filteredSpaces spaces st.spaceSearchQuery).length : Int) * (-1)
          by ring,
        Int.add_mul_emod_self_left,
        Int.emod_eq_of_lt (by omega) (by omega)]
  · intro hc
    rw [hdown, if_neg (by omega)]
  · intro hc
    rw [hup, if_neg (by omega)]

/-- Witness for C6 (the navigation scenario): with 3 filtered spaces and
the highlight at index 0, ArrowUp wraps the highlight to index 2. -/
theorem arrow_navigation_wraps_witness :
    (handleKeyDown ⟨"ArrowUp".toList, false⟩ wSpaces3
      wNavSt).1.highlightedSpaceIndex = 2 :=
  ((arrow_navigation_wraps wSpaces3 wNavSt false rfl (by decide)
    (by decide)).2.2.2 rfl).trans (by decide)

/-- Claim C7: a query whose trimmed form is empty makes both `handleSearch`
variants return before `setIsSearching` and before the fetch: no request is
issued and the search state is returned unchanged. -/
theorem empty_query_no_request :
    ∀ (now : Nat) (q : Str) (sp : Option Space) (maxR : Nat)
      (outcome : FetchOutcome) (st : SearchState),
      (jsTrim q).isEmpty = true →
      handleSearchApp now q sp maxR outcome st = (st, none) ∧
      handleSearchAuth now q sp maxR outcome st = (st, none) := by
  intro now q sp maxR outcome st h
  constructor <;> simp [handleSearchApp, handleSearchAuth, h]

/-- Witness for C7: a whitespace-only query leaves the state alone and
issues no request, in both handlers. -/
theorem empty_query_no_request_witness :
    handleSearchApp 0 ("   ".toList) none 10 FetchOutcome.netError
        ⟨none, [], false⟩ = (⟨none, [], false⟩, none) ∧
    handleSearchAuth 0 ("   ".toList) none 10 FetchOutcome.netError
        ⟨none, [], false⟩ = (⟨none, [], false⟩, none) :=
  empty_query_no_request 0 ("   ".toList) none 10 FetchOutcome.netError
    ⟨none, [], false⟩ (by decide)

/-- Claim C9: notification ids are the `Date.now()` timestamp, so two
notifications added at the same millisecond carry the same id, and the
scheduled dismissal of that id removes both of them (and every other
notification with that id) — ids are not unique at this interface. -/
theorem notification_id_collision :
    ∀ (now : Nat) (m1 t1 m2 t2 : Str) (ns : List Notification),
      (addNotification now m2 t2 (addNotification now m1 t1 ns) =
        ns ++ [⟨now, m1, t1⟩, ⟨now, m2, t2⟩]) ∧
      (dismissNotification now
          (addNotification now m2 t2 (addNotification now m1 t1 ns)) =
        dismissNotification now ns) ∧
      ((dismissNotification now
          (addNotification now m2 t2 (addNotification now m1 t1 ns))).all
        (fun n => n.id != now) = true) := by
  intro now m1 t1 m2 t2 ns
  refine ⟨by simp [addNotification], ?_, ?_⟩
  · simp [addNotification, dismissNotification, List.filter_append]
  · rw [List.all_eq_true]
    intro n hn
    exact (List.mem_filter.mp hn).2

/-- Claim C10: `delete_many` keeps exactly the documents that do not match
the query under `_match_query`, in their original relative order, and
reports the number of removed documents as `deleted_count`. -/
theorem delete_many_spec :
    ∀ (data : List Doc) (query : List (Str × QVal)),
      ((delete_many data query).1.Sublist data) ∧
      (∀ item, item ∈ (delete_many data query).1 ↔
        item ∈ data ∧ matchQuery item query = false) ∧
      ((delete_many data query).2.deleted_count =
        (data.filter (fun item => matchQuery item query)).length) ∧
      ((delete_many data query).2.deleted_count +
        (delete_many data query).1.length = data.length) := by
  intro data query
  have hlen := length_filter_not_add (fun item => matchQuery item query) data
  refine ⟨List.filter_sublist _, ?_, ?_, ?_⟩
  · intro item
    simp [delete_many, List.mem_filter]
  · simp only [delete_many]
    omega
  · simp only [delete_many]
    have : (data.filter (fun item => !(matchQuery item query))).length ≤
        data.length := List.length_filter_le _ _
    omega
